import Mathlib

/-!
Shallow embedding of `jwst/datamodels/library.py` (`ModelLibrary`,
`_OnDiskModelStore`, `_attrs_to_group_id`, `_file_to_group_id`) and proofs
about it.

Python dictionaries are embedded as association lists (insertion order is
kept, keys are unique along reachable states).  Python object identity is
embedded as an allocation counter `nextId` carried by the library state:
every call to `datamodels_open` (the serialization collaborator) returns an
object stamped with a fresh `oid`.  Exceptions are embedded with `Except`
or an explicit `Option Err` component where the post-state after a raise
matters.
-/

namespace JwstLib

/-- The exception taxonomy of `library.py` plus the Python built-ins the
code can raise (`KeyError`/`IndexError` from dict/list access, `TypeError`
from unpacking an `int`, `OSError` from failed file reads). -/
inductive Err where
  | borrowError (msg : String)
  | closedLibraryError (msg : String)
  | keyError
  | indexError
  | typeError
  | osError (msg : String)
deriving Repr, DecidableEq

/-- The small metadata surface of a data model that `library.py` touches:
`meta.filename`, `meta.group_id`, `meta.tweakreg_catalog`, `meta.exptype`. -/
structure ModelMeta where
  filename : Option String := none
  group_id : Option String := none
  tweakreg_catalog : Option String := none
  exptype : Option String := none
deriving Repr, DecidableEq

/-- An open data model: an opaque payload (its metadata record) plus the
Python object identity `oid` given to it when it was materialized. -/
structure Model where
  oid : Nat
  meta : ModelMeta
deriving Repr, DecidableEq

/-- An association member as read from the association file: `expname` and
`exptype` are required keys, `group_id` and `tweakreg_catalog` may be
absent. -/
structure RawMember where
  expname : String
  exptype : String
  group_id : Option String := none
  tweakreg_catalog : Option String := none
deriving Repr, DecidableEq

/-- A member after `ModelLibrary.__init__` has ensured every member carries
a `group_id` (lines 120-123 of `library.py`). -/
structure Member where
  expname : String
  exptype : String
  group_id : String
  tweakreg_catalog : Option String := none
deriving Repr, DecidableEq

/-- Contents of one on-disk FITS file as far as `library.py` reads it: the
seven primary-header keywords used by `_file_to_group_id`, the
`meta.group_id` entry of the embedded ASDF extension when one is present,
and the model that `datamodels_open` would produce from the file. -/
structure FileData where
  program_number : String
  observation_number : String
  visit_number : String
  visit_group : String
  sequence_id : String
  activity_id : String
  exposure_number : String
  asdf_group_id : Option String := none
  meta : ModelMeta := {}
deriving Repr, DecidableEq

/-- Dictionary lookup (`d[k]` / `k in d`) on an association list. -/
def dlookup {κ α : Type} [DecidableEq κ] (k : κ) : List (κ × α) → Option α
  | [] => none
  | (k', v) :: rest => if k' = k then some v else dlookup k rest

/-- Dictionary assignment `d[k] = v`: overwrite in place when the key is
present, append at the end otherwise (as Python dicts keep insertion
order). -/
def dset {κ α : Type} [DecidableEq κ] (k : κ) (v : α) : List (κ × α) → List (κ × α)
  | [] => [(k, v)]
  | (k', v') :: rest => if k' = k then (k, v) :: rest else (k', v') :: dset k v rest

/-- Dictionary deletion `del d[k]`: removes the (first) entry for `k`. -/
def derase {κ α : Type} [DecidableEq κ] (k : κ) : List (κ × α) → List (κ × α)
  | [] => []
  | (k', v') :: rest => if k' = k then rest else (k', v') :: derase k rest

/-- `_attrs_to_group_id` of `library.py` (lines 300-313): the three
adjacent f-strings
`"jw{program}{observation}{visit}" "_{visitgroup}{sequence}{activity}" "_{exposure}"`. -/
def attrsToGroupId (program_number observation_number visit_number
    visit_group sequence_id activity_id exposure_number : String) : String :=
  ("jw" ++ program_number ++ observation_number ++ visit_number)
    ++ ("_" ++ visit_group ++ sequence_id ++ activity_id)
    ++ ("_" ++ exposure_number)

/-- The header fallback of `_file_to_group_id`: format the seven primary
header keywords with `_attrs_to_group_id`. -/
def headerGroupId (fd : FileData) : String :=
  attrsToGroupId fd.program_number fd.observation_number fd.visit_number
    fd.visit_group fd.sequence_id fd.activity_id fd.exposure_number

/-- `_file_to_group_id` (lines 316-346): when the ASDF extension holds a
truthy `meta.group_id` return it, otherwise derive the id from the seven
primary-header keywords without materializing the model. -/
def fileToGroupId (fd : FileData) : String :=
  match fd.asdf_group_id with
  | some g => if g = "" then headerGroupId fd else g
  | none => headerGroupId fd

/-- The model store of a `ModelLibrary`: a plain dict when `on_disk` is
false, an `_OnDiskModelStore` (lines 28-71) when `on_disk` is true.  The
on-disk variant carries its `_filenames` dict and the scratch-directory
contents (filename to serialized model data); reading a file with
`datamodels_open` allocates a fresh object, so on-disk `get` threads the
allocation counter. -/
inductive Store where
  | mem : List (Nat × Model) → Store
  | disk : List (Nat × String) → List (String × ModelMeta) → Store
deriving Repr, DecidableEq

/-- `key in store` for either store implementation (dict membership, and
`_filenames` membership for `_OnDiskModelStore`). -/
def Store.contains : Store → Nat → Bool
  | .mem l, k => (dlookup k l).isSome
  | .disk fns _, k => (dlookup k fns).isSome

/-- `store[key]`. The plain dict returns the stored reference unchanged;
`_OnDiskModelStore.__getitem__` (lines 40-43) raises `KeyError` when the
key has no filename and otherwise re-opens the file with
`datamodels_open`, producing a fresh object (fresh `oid`, counter bumped). -/
def Store.get : Store → Nat → Nat → Except Err (Model × Nat)
  | .mem l, k, nid =>
    match dlookup k l with
    | some m => .ok (m, nid)
    | none => .error .keyError
  | .disk fns files, k, nid =>
    match dlookup k fns with
    | none => .error .keyError
    | some fn =>
      match dlookup fn files with
      | none => .error (.osError "no such file")
      | some meta => .ok ({ oid := nid, meta := meta }, nid + 1)

/-- `store[key] = model`. The plain dict stores the reference;
`_OnDiskModelStore.__setitem__` (lines 45-58) reuses the filename recorded
for the key, or derives one from the model's `meta.filename` (default
`"model.fits"`) inside a per-key subdirectory, then saves the model to the
file. -/
def Store.set : Store → Nat → Model → Store
  | .mem l, k, m => .mem (dset k m l)
  | .disk fns files, k, m =>
    match dlookup k fns with
    | some fn => .disk fns (dset fn m.meta files)
    | none =>
      match m.meta.filename with
      | some mf => .disk (dset k (toString k ++ "/" ++ mf) fns) (dset (toString k ++ "/" ++ mf) m.meta files)
      | none => .disk (dset k (toString k ++ "/model.fits") fns) (dset (toString k ++ "/model.fits") m.meta files)

/-- The state of one `ModelLibrary`: the member list (`_members`), the
`_open` flag, the `_ledger` dict, the model store, the `_on_disk` flag, the
association directory's files, the eagerly loaded `_models` list of the
single-member fast path, and the allocation counter modelling Python
object identity (each `datamodels_open` call bumps it). -/
structure LibState where
  members : List Member
  isOpen : Bool
  ledger : List (Nat × Model)
  store : Store
  onDisk : Bool
  files : List (String × FileData)
  modelsCache : Option Model := none
  nextId : Nat
deriving Repr, DecidableEq

/-- `ModelLibrary._load_member` (lines 222-234): look the member up, open
its file with `datamodels_open` (fresh object), then overwrite
`meta.group_id`, `meta.tweakreg_catalog` and `meta.exptype` from the member
dict where the member has the key (`group_id` and `exptype` always present
after construction, `tweakreg_catalog` optional). -/
def loadMember (s : LibState) (index : Nat) : Except Err (Model × LibState) :=
  match s.members.get? index with
  | none => .error .indexError
  | some member =>
    match dlookup member.expname s.files with
    | none => .error (.osError "cannot open member file")
    | some fd =>
      let meta1 : ModelMeta := { fd.meta with group_id := some member.group_id }
      let meta2 : ModelMeta :=
        match member.tweakreg_catalog with
        | some t => { meta1 with tweakreg_catalog := some t }
        | none => meta1
      let meta3 : ModelMeta := { meta2 with exptype := some member.exptype }
      .ok ({ oid := s.nextId, meta := meta3 }, { s with nextId := s.nextId + 1 })

/-- The `index in self._model_store` branch of `ModelLibrary.__getitem__`
(lines 184-185 and 192-194): fetch the model from the store and record it
in the ledger. -/
def getItemFromStore (s : LibState) (index : Nat) : Except Err (Model × LibState) :=
  match s.store.get index s.nextId with
  | .error e => .error e
  | .ok (m, nid) => .ok (m, { s with nextId := nid, ledger := dset index m s.ledger })

/-- The `else` branch of `ModelLibrary.__getitem__` (lines 186-194):
materialize the member with `_load_member`, cache it in the store only
when not `on_disk`, and record it in the ledger. -/
def getItemLoad (s : LibState) (index : Nat) : Except Err (Model × LibState) :=
  match loadMember s index with
  | .error e => .error e
  | .ok (m, s1) =>
    if s1.onDisk then .ok (m, { s1 with ledger := dset index m s1.ledger })
    else .ok (m, { s1 with store := s1.store.set index m, ledger := dset index m s1.ledger })

/-- `ModelLibrary.__getitem__` (lines 176-194), the borrow operation:
closed-library check, double-borrow check, then either fetch from the
store or materialize via `_load_member`. -/
def getItem (s : LibState) (index : Nat) : Except Err (Model × LibState) :=
  if s.isOpen = false then .error (.closedLibraryError "ModelLibrary is not open")
  else if (dlookup index s.ledger).isSome then
    .error (.borrowError "Attempt to double-borrow model")
  else if s.store.contains index then getItemFromStore s index
  else getItemLoad s index

/-- `ModelLibrary.__setitem__` (lines 196-204), the return operation: fails
with `BorrowError` when the index is not in the ledger, otherwise removes
the ledger entry and commits the model to the store.  The `_open` flag is
not consulted. -/
def setItem (s : LibState) (index : Nat) (m : Model) : Except Err (Unit × LibState) :=
  if (dlookup index s.ledger).isSome then
    .ok ((), { s with ledger := derase index s.ledger, store := s.store.set index m })
  else .error (.borrowError "Attempt to return non-borrowed model")

/-- The ledger removal shared by `ModelLibrary.discard` (lines 208-216):
fails with `BorrowError` when the index is not in the ledger, otherwise
removes the ledger entry without committing anything to the store.  The
`_open` flag is not consulted. -/
def discardIdx (s : LibState) (index : Nat) : Except Err (Unit × LibState) :=
  if (dlookup index s.ledger).isSome then
    .ok ((), { s with ledger := derase index s.ledger })
  else .error (.borrowError "Attempt to discard non-borrowed model")

/-- `ModelLibrary.discard(index, model)`: the `model` argument is ignored
by the source. -/
def discard (s : LibState) (index : Nat) (model : Model) : Except Err (Unit × LibState) :=
  discardIdx s index

/-- `ModelLibrary.__enter__` (lines 268-270). -/
def enter (s : LibState) : LibState :=
  { s with isOpen := true }

/-- `ModelLibrary.__exit__` (lines 272-281), the close operation: the
`_open` flag is cleared first, unconditionally; then, when the ledger is
non-empty, a `BorrowError` naming the number of un-returned models is
raised.  The pair returns the raised error (if any) together with the
post-state. -/
def exitLib (s : LibState) : Option Err × LibState :=
  let s1 : LibState := { s with isOpen := false }
  if s1.ledger.isEmpty then (none, s1)
  else (some (.borrowError ("ModelLibrary has " ++ toString s1.ledger.length ++ " un-returned models")), s1)

/-- One pass of `ModelLibrary.__iter__` (lines 218-220): borrow each index
in turn, accumulating the yielded models; the first raised exception
aborts the iteration. -/
def iterGo : List Nat → LibState → List Model → Except Err (List Model × LibState)
  | [], s, acc => .ok (acc.reverse, s)
  | i :: rest, s, acc =>
    match getItem s i with
    | .error e => .error e
    | .ok (m, s') => iterGo rest s' (m :: acc)

/-- Consuming the iterator of `ModelLibrary.__iter__` to exhaustion. -/
def iterAll (s : LibState) : Except Err (List Model × LibState) :=
  iterGo (List.range s.members.length) s []

/-- `ModelLibrary.group_names` (lines 156-161): the distinct `group_id`
values over the members, as the set they are inserted into (kept here in
first-insertion order). -/
def groupNamesOf (members : List Member) : List String :=
  members.foldl (fun ns m => if m.group_id ∈ ns then ns else ns ++ [m.group_id]) []

/-- The loop body dictionary update of `ModelLibrary.group_indices`:
`group_dict.setdefault-like` append of index `i` under key `k` (a fresh
key is appended at the end, as Python dicts keep insertion order). -/
def gappend (k : String) (i : Nat) : List (String × List Nat) → List (String × List Nat)
  | [] => [(k, [i])]
  | (k', l) :: rest => if k' = k then (k', l ++ [i]) :: rest else (k', l) :: gappend k i rest

/-- The `enumerate` loop of `ModelLibrary.group_indices` (lines 163-171),
with `i` the index of the next member. -/
def giAux : List Member → Nat → List (String × List Nat) → List (String × List Nat)
  | [], _, gd => gd
  | m :: rest, i, gd => giAux rest (i + 1) (gappend m.group_id i gd)

/-- `ModelLibrary.group_indices`: mapping from `group_id` to the list of
member indices carrying it, built by one enumerate pass. -/
def groupIndicesOf (members : List Member) : List (String × List Nat) :=
  giAux members 0 []

/-- The `group_names` property access on a library: it reads only
`self._members` and performs no state change and no materialization. -/
def groupNamesOp (s : LibState) : Except Err (List String × LibState) :=
  .ok (groupNamesOf s.members, s)

/-- The `group_indices` property access on a library: it reads only
`self._members` and performs no state change and no materialization. -/
def groupIndicesOp (s : LibState) : Except Err (List (String × List Nat) × LibState) :=
  .ok (groupIndicesOf s.members, s)

/-- The member-selection part of `ModelLibrary.__init__` (lines 105-112):
first the `asn_exptypes` allow-set filter, then truncation of the
(possibly filtered) list to the first `asn_n_members` entries. -/
def selectMembers (asn_exptypes : Option (List String)) (asn_n_members : Option Nat)
    (raw : List RawMember) : List RawMember :=
  let filtered : List RawMember :=
    match asn_exptypes with
    | none => raw
    | some ts => raw.filter (fun m => m.exptype ∈ ts)
  match asn_n_members with
  | none => filtered
  | some k => filtered.take k

/-- The group-id check of `ModelLibrary.__init__` for one member (lines
120-123): keep an explicit `group_id` when the member has one, otherwise
derive it from the member's file with `_file_to_group_id`. -/
def resolveGroupId (files : List (String × FileData)) (m : RawMember) : Except Err Member :=
  match m.group_id with
  | some g => .ok { expname := m.expname, exptype := m.exptype, group_id := g, tweakreg_catalog := m.tweakreg_catalog }
  | none =>
    match dlookup m.expname files with
    | none => .error (.osError "cannot open member file")
    | some fd => .ok { expname := m.expname, exptype := m.exptype, group_id := fileToGroupId fd, tweakreg_catalog := m.tweakreg_catalog }

/-- The group-id loop of `ModelLibrary.__init__` over all members. -/
def resolveMembers (files : List (String × FileData)) : List RawMember → Except Err (List Member)
  | [] => .ok []
  | m :: rest =>
    match resolveGroupId files m with
    | .error e => .error e
    | .ok m' =>
      match resolveMembers files rest with
      | .error e => .error e
      | .ok rest' => .ok (m' :: rest')

/-- `ModelLibrary.__init__` (lines 75-132): select members (filter then
truncate), ensure every member has a `group_id`, set up the empty ledger,
the closed flag and the configured store; when `asn_n_members == 1`,
eagerly load member 0 into the separate `_models` list (not into the model
store).  `initState` is the state as lines 80-89 leave it. -/
def initState (files : List (String × FileData)) (members : List Member)
    (onDisk : Bool) : LibState :=
  { members := members, isOpen := false, ledger := [],
    store := if onDisk then .disk [] [] else .mem [],
    onDisk := onDisk, files := files, modelsCache := none, nextId := 0 }

def initLib (files : List (String × FileData)) (raw : List RawMember)
    (asn_exptypes : Option (List String)) (asn_n_members : Option Nat)
    (onDisk : Bool) : Except Err LibState :=
  match resolveMembers files (selectMembers asn_exptypes asn_n_members raw) with
  | .error e => .error e
  | .ok members =>
    if asn_n_members = some 1 then
      match loadMember (initState files members onDisk) 0 with
      | .error e => .error e
      | .ok (m, s1) => .ok { s1 with modelsCache := some m }
    else .ok (initState files members onDisk)

/-- The Python values flowing through `ModelLibrary.index` (lines 283-297):
the loop iterates `range(len(self))`, so the iterated values are ints; a
tuple value is what the loop header's two-variable target would need. -/
inductive PyVal where
  | int : Nat → PyVal
  | pair : PyVal → PyVal → PyVal
deriving Repr, DecidableEq

/-- Unpacking one iterated value into the two loop variables
`(i, model)`: unpacking a tuple of two succeeds, unpacking an `int` raises
`TypeError` (cannot unpack non-iterable int). -/
def iterUnpack2 : PyVal → Except Err (PyVal × PyVal)
  | .pair a b => .ok (a, b)
  | .int _ => .error .typeError

/-- `range(n)` as the list of iterated Python values. -/
def pyRange (n : Nat) : List PyVal :=
  (List.range n).map PyVal.int

/-- The subscript `model[attribute]` of `ModelLibrary.index` applied to one
of the values above: neither an `int` nor a tuple supports string
subscripts, so both raise `TypeError`. -/
def subscriptAttr : PyVal → String → Except Err PyVal
  | .int _, _ => .error .typeError
  | .pair _ _, _ => .error .typeError

/-- Result of consuming the generator returned by `ModelLibrary.index`:
the values yielded before termination, the exception that ended the run
(if any), and the final library state. -/
structure GenRun where
  yielded : List PyVal
  err : Option Err
  state : LibState
deriving Repr, DecidableEq

/-- An exception raised inside the `with self:` block of
`ModelLibrary.index`: `__exit__` runs (clearing `_open`), and when the
ledger is non-empty its `BorrowError` replaces the original exception. -/
def genAbort (s : LibState) (acc : List PyVal) (e : Err) : GenRun :=
  match exitLib s with
  | (none, s') => { yielded := acc.reverse, err := some e, state := s' }
  | (some e2, s') => { yielded := acc.reverse, err := some e2, state := s' }

/-- The `for (i, model) in range(len(self))` loop of `ModelLibrary.index`:
each iterated value is unpacked into `(i, model)`, then the body reads
`model[attribute]`, discards, and yields (the body is unreachable because
unpacking an `int` always raises). -/
def indexGo (attrName : String) : List PyVal → LibState → List PyVal → GenRun
  | [], s, acc =>
    match exitLib s with
    | (none, s') => { yielded := acc.reverse, err := none, state := s' }
    | (some e, s') => { yielded := acc.reverse, err := some e, state := s' }
  | x :: rest, s, acc =>
    match iterUnpack2 x with
    | .error e => genAbort s acc e
    | .ok (iv, mv) =>
      match subscriptAttr mv attrName with
      | .error e => genAbort s acc e
      | .ok attr =>
        match iv with
        | .pair _ _ => genAbort s acc .typeError
        | .int i =>
          match discardIdx s i with
          | .error e => genAbort s acc e
          | .ok (_, s') => indexGo attrName rest s' (attr :: acc)

/-- `ModelLibrary.index(attribute, copy)` consumed to exhaustion: enter the
`with self:` block, then run the loop over `range(len(self))`.  The `copy`
flag only selects the per-yield copy function and cannot influence whether
a value is ever yielded. -/
def indexGen (s : LibState) (attrName : String) (copy : Bool) : GenRun :=
  indexGo attrName (pyRange s.members.length) (enter s) []

/-- A concrete file: the seven grouping keywords of the spec's scenario,
no ASDF-embedded group id. -/
def fdEx : FileData :=
  { program_number := "0001", observation_number := "1", visit_number := "1",
    visit_group := "1", sequence_id := "01", activity_id := "1", exposure_number := "1" }

/-- A concrete member for the file above, with its group id resolved. -/
def memEx : Member :=
  { expname := "0.fits", exptype := "science", group_id := "jw000111_1011_1" }

/-- A concrete model standing for an already-borrowed object. -/
def modelEx : Model :=
  { oid := 100, meta := {} }

/-- A concrete open, in-memory, single-member library with one outstanding
borrow of index 0. -/
def sBorrowedEx : LibState :=
  { members := [memEx], isOpen := true, ledger := [(0, modelEx)],
    store := .mem [], onDisk := false, files := [("0.fits", fdEx)], nextId := 101 }

/-- A concrete open, in-memory, single-member library with an empty ledger
and an empty store. -/
def sFreshEx : LibState :=
  { members := [memEx], isOpen := true, ledger := [],
    store := .mem [], onDisk := false, files := [("0.fits", fdEx)], nextId := 0 }

/-- The library above after a close attempt: flag cleared, ledger kept. -/
def sClosedLedgerEx : LibState :=
  { sBorrowedEx with isOpen := false }

/-- The model that borrowing index 0 of `sFreshEx` materializes. -/
def mLoadedEx : Model :=
  { oid := 0, meta := { group_id := some "jw000111_1011_1", exptype := some "science" } }

/-- `sFreshEx` right after borrowing index 0: the loaded model is cached
in the store and recorded in the ledger. -/
def sAfterBorrowEx : LibState :=
  { sFreshEx with ledger := [(0, mLoadedEx)], store := .mem [(0, mLoadedEx)], nextId := 1 }

/-- `sAfterBorrowEx` right after discarding index 0. -/
def sAfterDiscardEx : LibState :=
  { sAfterBorrowEx with ledger := [] }

/-- A concrete serialized model record on the spillover store's disk. -/
def metaEx : ModelMeta :=
  { filename := some "model.fits" }

/-- A concrete spillover store holding index 0. -/
def diskStoreEx : Store :=
  .disk [(0, "0/model.fits")] [("0/model.fits", metaEx)]

/-- A concrete raw member list for construction scenarios. -/
def rawsEx : List RawMember :=
  [{ expname := "0.fits", exptype := "science", group_id := some "g1" },
   { expname := "1.fits", exptype := "science", group_id := some "g1" },
   { expname := "2.fits", exptype := "background", group_id := some "g2" }]

/-- The library built from the first two members of `rawsEx`. -/
def libTruncEx : LibState :=
  { members :=
      [{ expname := "0.fits", exptype := "science", group_id := "g1" },
       { expname := "1.fits", exptype := "science", group_id := "g1" }],
    isOpen := false, ledger := [], store := .mem [],
    onDisk := false, files := [], modelsCache := none, nextId := 0 }

theorem dlookup_dset_self {κ α : Type} [DecidableEq κ] (k : κ) (v : α) (l : List (κ × α)) :
    dlookup k (dset k v l) = some v := by
  induction l with
  | nil => simp [dset, dlookup]
  | cons p rest ih =>
    obtain ⟨k', v'⟩ := p
    by_cases h : k' = k <;> simp [dset, dlookup, h, ih]

theorem dlookup_dset_ne {κ α : Type} [DecidableEq κ] {j k : κ} (h : j ≠ k) (v : α)
    (l : List (κ × α)) : dlookup j (dset k v l) = dlookup j l := by
  have hkj : ¬ k = j := fun hkj => h hkj.symm
  induction l with
  | nil => simp [dset, dlookup, hkj]
  | cons p rest ih =>
    obtain ⟨k', v'⟩ := p
    by_cases hk : k' = k
    · subst hk
      simp [dset, dlookup, hkj]
    · by_cases hj : k' = j <;> simp [dset, dlookup, hk, hj, ih, h]

theorem dlookup_none_not_mem {κ α : Type} [DecidableEq κ] {k : κ} {l : List (κ × α)}
    (h : dlookup k l = none) : k ∉ l.map Prod.fst := by
  induction l with
  | nil => simp
  | cons p rest ih =>
    obtain ⟨k', v'⟩ := p
    by_cases hk : k' = k
    · simp [dlookup, hk] at h
    · simp only [dlookup, if_neg hk] at h
      simp only [List.map_cons, List.mem_cons]
      push_neg
      exact ⟨fun hkk => hk hkk.symm, ih h⟩

theorem keys_dset_absent {κ α : Type} [DecidableEq κ] {k : κ} (v : α) {l : List (κ × α)}
    (h : dlookup k l = none) : (dset k v l).map Prod.fst = l.map Prod.fst ++ [k] := by
  induction l with
  | nil => simp [dset]
  | cons p rest ih =>
    obtain ⟨k', v'⟩ := p
    by_cases hk : k' = k
    · simp [dlookup, hk] at h
    · simp only [dlookup, if_neg hk] at h
      simp [dset, hk, ih h]

theorem keys_derase_sublist {κ α : Type} [DecidableEq κ] (k : κ) (l : List (κ × α)) :
    ((derase k l).map Prod.fst).Sublist (l.map Prod.fst) := by
  induction l with
  | nil => simp [derase]
  | cons p rest ih =>
    obtain ⟨k', v'⟩ := p
    by_cases hk : k' = k
    · simp only [derase, if_pos hk, List.map_cons]
      exact (List.Sublist.refl _).cons k'
    · simp only [derase, if_neg hk, List.map_cons]
      exact ih.cons₂ k'

theorem store_contains_set_self (st : Store) (k : Nat) (m : Model) :
    (st.set k m).contains k = true := by
  cases st with
  | mem l => simp [Store.set, Store.contains, dlookup_dset_self]
  | disk fns files =>
    simp only [Store.set]
    cases hf : dlookup k fns with
    | some fn => simp [Store.contains, hf]
    | none => cases m.meta.filename <;> simp [Store.contains, dlookup_dset_self]

theorem loadMember_state {s : LibState} {i : Nat} {m : Model} {s1 : LibState}
    (h : loadMember s i = .ok (m, s1)) : s1 = { s with nextId := s.nextId + 1 } := by
  unfold loadMember at h
  split at h
  · exact (Except.noConfusion h)
  · split at h
    · exact (Except.noConfusion h)
    · simp only [Except.ok.injEq, Prod.mk.injEq] at h
      exact h.2.symm

theorem getItemFromStore_ok {s : LibState} {i : Nat} {m : Model} {s1 : LibState}
    (h : getItemFromStore s i = .ok (m, s1)) :
    ∃ nid, s.store.get i s.nextId = .ok (m, nid) ∧
      s1 = { s with nextId := nid, ledger := dset i m s.ledger } := by
  unfold getItemFromStore at h
  split at h
  · exact (Except.noConfusion h)
  · rename_i m' nid heq
    simp only [Except.ok.injEq, Prod.mk.injEq] at h
    obtain ⟨hm, hs⟩ := h
    subst hm
    exact ⟨nid, heq, hs.symm⟩

theorem getItemLoad_ok {s : LibState} {i : Nat} {m : Model} {s1 : LibState}
    (h : getItemLoad s i = .ok (m, s1)) :
    loadMember s i = .ok (m, { s with nextId := s.nextId + 1 }) ∧
    ((s.onDisk = true ∧
        s1 = { s with nextId := s.nextId + 1, ledger := dset i m s.ledger }) ∨
     (s.onDisk = false ∧
        s1 = { s with nextId := s.nextId + 1, store := s.store.set i m, ledger := dset i m s.ledger })) := by
  unfold getItemLoad at h
  split at h
  · exact (Except.noConfusion h)
  · rename_i m' s1' heq
    have hst := loadMember_state heq
    subst hst
    split at h
    · rename_i hod
      have hod' : s.onDisk = true := hod
      simp only [Except.ok.injEq, Prod.mk.injEq] at h
      obtain ⟨hm, hs⟩ := h
      subst hm
      exact ⟨heq, Or.inl ⟨hod', hs.symm⟩⟩
    · rename_i hod
      have hod' : s.onDisk = false := by
        revert hod
        cases ho : s.onDisk <;> simp
      simp only [Except.ok.injEq, Prod.mk.injEq] at h
      obtain ⟨hm, hs⟩ := h
      subst hm
      exact ⟨heq, Or.inr ⟨hod', hs.symm⟩⟩

theorem getItem_ok {s : LibState} {i : Nat} {m : Model} {s1 : LibState}
    (h : getItem s i = .ok (m, s1)) :
    s.isOpen = true ∧ dlookup i s.ledger = none ∧
    s1.ledger = dset i m s.ledger ∧ s1.members = s.members ∧
    s1.onDisk = s.onDisk ∧ s1.isOpen = s.isOpen ∧ s1.modelsCache = s.modelsCache ∧
    ((s.store.contains i = true ∧ s1.store = s.store) ∨
     (s.store.contains i = false ∧
       ((s.onDisk = true ∧ s1.store = s.store) ∨
        (s.onDisk = false ∧ s1.store = s.store.set i m)))) := by
  by_cases hopen : s.isOpen = false
  · unfold getItem at h
    rw [if_pos hopen] at h
    exact Except.noConfusion h
  · have hopen' : s.isOpen = true := by
      cases ho : s.isOpen
      · exact absurd ho hopen
      · rfl
    by_cases hled : (dlookup i s.ledger).isSome = true
    · unfold getItem at h
      rw [if_neg hopen, if_pos hled] at h
      exact Except.noConfusion h
    · have hled' : dlookup i s.ledger = none := by
        cases hl : dlookup i s.ledger
        · rfl
        · exact absurd (by simp [hl]) hled
      by_cases hcont : s.store.contains i = true
      · have hh : getItemFromStore s i = .ok (m, s1) := by
          unfold getItem at h
          rwa [if_neg hopen, if_neg hled, if_pos hcont] at h
        obtain ⟨nid, hget, hs⟩ := getItemFromStore_ok hh
        subst hs
        exact ⟨hopen', hled', rfl, rfl, rfl, rfl, rfl, Or.inl ⟨hcont, rfl⟩⟩
      · have hcont' : s.store.contains i = false := by
          cases hc : s.store.contains i
          · rfl
          · exact absurd hc hcont
        have hh : getItemLoad s i = .ok (m, s1) := by
          unfold getItem at h
          rwa [if_neg hopen, if_neg hled, if_neg hcont] at h
        obtain ⟨hlm, hcase⟩ := getItemLoad_ok hh
        rcases hcase with ⟨hod, hs⟩ | ⟨hod, hs⟩
        · subst hs
          exact ⟨hopen', hled', rfl, rfl, rfl, rfl, rfl, Or.inr ⟨hcont', Or.inl ⟨hod, rfl⟩⟩⟩
        · subst hs
          exact ⟨hopen', hled', rfl, rfl, rfl, rfl, rfl, Or.inr ⟨hcont', Or.inr ⟨hod, rfl⟩⟩⟩


theorem setItem_ok {s : LibState} {i : Nat} {m : Model} {s1 : LibState}
    (h : setItem s i m = .ok ((), s1)) :
    (dlookup i s.ledger).isSome = true ∧
    s1 = { s with ledger := derase i s.ledger, store := s.store.set i m } := by
  unfold setItem at h
  split at h
  · rename_i hl
    simp only [Except.ok.injEq, Prod.mk.injEq, true_and] at h
    exact ⟨hl, h.symm⟩
  · exact Except.noConfusion h

theorem discardIdx_ok {s : LibState} {i : Nat} {s1 : LibState}
    (h : discardIdx s i = .ok ((), s1)) :
    (dlookup i s.ledger).isSome = true ∧
    s1 = { s with ledger := derase i s.ledger } := by
  unfold discardIdx at h
  split at h
  · rename_i hl
    simp only [Except.ok.injEq, Prod.mk.injEq, true_and] at h
    exact ⟨hl, h.symm⟩
  · exact Except.noConfusion h

theorem initLib_ok {files : List (String × FileData)} {raw : List RawMember}
    {et : Option (List String)} {nm : Option Nat} {od : Bool} {lib : LibState}
    (h : initLib files raw et nm od = .ok lib) :
    resolveMembers files (selectMembers et nm raw) = .ok lib.members ∧
    lib.ledger = [] ∧ lib.isOpen = false ∧ lib.onDisk = od ∧ lib.files = files ∧
    lib.store = (if od then Store.disk [] [] else Store.mem []) := by
  unfold initLib at h
  split at h
  · exact Except.noConfusion h
  · rename_i members hres
    split at h
    · split at h
      · exact Except.noConfusion h
      · rename_i m s1 hlm
        have hst := loadMember_state hlm
        subst hst
        simp only [Except.ok.injEq] at h
        subst h
        exact ⟨hres, rfl, rfl, rfl, rfl, rfl⟩
    · simp only [Except.ok.injEq] at h
      subst h
      exact ⟨hres, rfl, rfl, rfl, rfl, rfl⟩

theorem store_empty_not_contains (od : Bool) (i : Nat) :
    (if od then Store.disk [] [] else Store.mem []).contains i = false := by
  cases od <;> simp [Store.contains, dlookup]

/-- C3: in an in-memory library, the first borrow of an index already
creates the storage slot (the loaded model is cached at borrow time), so
borrowing and then discarding leaves a slot behind — refuting that a slot
is absent until the index has been borrowed and returned. -/
theorem slot_after_discard_counterexample :
    getItem sFreshEx 0 = .ok (mLoadedEx, sAfterBorrowEx) ∧
    discard sAfterBorrowEx 0 mLoadedEx = .ok ((), sAfterDiscardEx) ∧
    sAfterDiscardEx.store.contains 0 = true := by
  exact ⟨rfl, rfl, rfl⟩

/-- C3 (amended): construction leaves the storage backend empty; for
on-disk libraries a successful borrow never changes the store (so
borrow-then-discard leaves no slot), while for in-memory libraries a
successful borrow always leaves a slot for the index (the loaded model is
cached at borrow time, so borrow-then-discard leaves a slot); a successful
return creates the slot in either mode, and a discard never changes the
store. -/
theorem slot_lifecycle (s : LibState) :
    (∀ i m s1, s.onDisk = true → getItem s i = .ok (m, s1) → s1.store = s.store) ∧
    (∀ i m s1, s.onDisk = false → getItem s i = .ok (m, s1) → s1.store.contains i = true) ∧
    (∀ i m s1, setItem s i m = .ok ((), s1) → s1.store.contains i = true) ∧
    (∀ i s1, discardIdx s i = .ok ((), s1) → s1.store = s.store) ∧
    (∀ i m s1 s2, s.onDisk = true → s.store.contains i = false →
       getItem s i = .ok (m, s1) → discard s1 i m = .ok ((), s2) →
       s2.store.contains i = false) ∧
    (∀ files raw et nm od lib, initLib files raw et nm od = .ok lib →
       ∀ i, lib.store.contains i = false) := by
  refine ⟨?_, ?_, ?_, ?_, ?_, ?_⟩
  · intro i m s1 hod hg
    rcases (getItem_ok hg).2.2.2.2.2.2.2 with ⟨_, hst⟩ | ⟨_, ⟨_, hst⟩ | ⟨hod', _⟩⟩
    · exact hst
    · exact hst
    · rw [hod] at hod'
      exact Bool.noConfusion hod'
  · intro i m s1 hod hg
    rcases (getItem_ok hg).2.2.2.2.2.2.2 with ⟨hc, hst⟩ | ⟨_, ⟨hod', _⟩ | ⟨_, hst⟩⟩
    · rw [hst]
      exact hc
    · rw [hod] at hod'
      exact Bool.noConfusion hod'
    · rw [hst]
      exact store_contains_set_self s.store i m
  · intro i m s1 hset
    rw [(setItem_ok hset).2]
    exact store_contains_set_self s.store i m
  · intro i s1 hd
    rw [(discardIdx_ok hd).2]
  · intro i m s1 s2 hod hc hg hd
    have hst1 : s1.store = s.store := by
      rcases (getItem_ok hg).2.2.2.2.2.2.2 with ⟨_, hst⟩ | ⟨_, ⟨_, hst⟩ | ⟨hod', _⟩⟩
      · exact hst
      · exact hst
      · rw [hod] at hod'
        exact Bool.noConfusion hod'
    have hst2 : s2.store = s1.store := by
      rw [(discardIdx_ok hd).2]
    rw [hst2, hst1]
    exact hc
  · intro files raw et nm od lib hinit i
    rw [(initLib_ok hinit).2.2.2.2.2]
    exact store_empty_not_contains od i

theorem slot_lifecycle_witness :
    getItem sFreshEx 0 = .ok (mLoadedEx, sAfterBorrowEx) →
      sAfterBorrowEx.store.contains 0 = true := by
  intro h
  exact (slot_lifecycle sFreshEx).2.1 0 mLoadedEx sAfterBorrowEx rfl h

/-- C4: for an open library, double-borrow, return-without-borrow and
discard-without-borrow each fail with the corresponding `BorrowError`, and
every operation preserves distinctness of the ledger's keys, so no index
ever appears twice in the ledger. -/
theorem ledger_discipline (s : LibState) :
    (s.isOpen = true → ∀ i, (dlookup i s.ledger).isSome = true →
       getItem s i = .error (Err.borrowError "Attempt to double-borrow model")) ∧
    (∀ i m, dlookup i s.ledger = none →
       setItem s i m = .error (Err.borrowError "Attempt to return non-borrowed model")) ∧
    (∀ i m, dlookup i s.ledger = none →
       discard s i m = .error (Err.borrowError "Attempt to discard non-borrowed model")) ∧
    ((s.ledger.map Prod.fst).Nodup →
       (∀ i m s1, getItem s i = .ok (m, s1) → (s1.ledger.map Prod.fst).Nodup) ∧
       (∀ i m s1, setItem s i m = .ok ((), s1) → (s1.ledger.map Prod.fst).Nodup) ∧
       (∀ i m s1, discard s i m = .ok ((), s1) → (s1.ledger.map Prod.fst).Nodup) ∧
       (enter s).ledger = s.ledger ∧ (exitLib s).2.ledger = s.ledger) := by
  refine ⟨?_, ?_, ?_, ?_⟩
  · intro hopen i hl
    simp [getItem, hopen, hl]
  · intro i m hl
    simp [setItem, hl]
  · intro i m hl
    simp [discard, discardIdx, hl]
  · intro hnodup
    refine ⟨?_, ?_, ?_, rfl, ?_⟩
    · intro i m s1 hg
      obtain ⟨_, hled, hledger, _⟩ := getItem_ok hg
      have hnotmem := dlookup_none_not_mem hled
      rw [hledger, keys_dset_absent m hled, List.nodup_append]
      refine ⟨hnodup, List.nodup_singleton i, ?_⟩
      intro a ha
      simp only [List.mem_singleton]
      intro hai
      rw [hai] at ha
      exact hnotmem ha
    · intro i m s1 hset
      rw [(setItem_ok hset).2]
      exact (keys_derase_sublist i s.ledger).nodup hnodup
    · intro i m s1 hd
      rw [(discardIdx_ok hd).2]
      exact (keys_derase_sublist i s.ledger).nodup hnodup
    · cases hl : s.ledger.isEmpty <;> simp [exitLib, hl]

theorem ledger_discipline_witness :
    getItem sBorrowedEx 0 = .error (Err.borrowError "Attempt to double-borrow model") ∧
    setItem sBorrowedEx 1 modelEx = .error (Err.borrowError "Attempt to return non-borrowed model") ∧
    discard sBorrowedEx 1 modelEx = .error (Err.borrowError "Attempt to discard non-borrowed model") ∧
    ((sAfterBorrowEx.ledger.map Prod.fst).Nodup ∧ (enter sBorrowedEx).ledger = sBorrowedEx.ledger) := by
  refine ⟨(ledger_discipline sBorrowedEx).1 rfl 0 rfl,
          (ledger_discipline sBorrowedEx).2.1 1 modelEx rfl,
          (ledger_discipline sBorrowedEx).2.2.1 1 modelEx rfl,
          ((ledger_discipline sFreshEx).2.2.2 (by decide)).1 0 mLoadedEx sAfterBorrowEx rfl,
          (((ledger_discipline sBorrowedEx).2.2.2 (by decide)).2.2.2).1⟩

/-- C5: `_attrs_to_group_id` is literal substitution into
`jw{program}{observation}{visit}_{visitgroup}{sequence}{activity}_{exposure}`,
but on the fields `("0001","1","1","1","01","1","1")` this yields
`jw000111_1011_1`, not the claimed `jw00011111_1011_1`. -/
theorem attrs_to_group_id_scenario_counterexample :
    attrsToGroupId "0001" "1" "1" "1" "01" "1" "1" = "jw000111_1011_1" ∧
    ("jw000111_1011_1" : String) ≠ "jw00011111_1011_1" := by
  exact ⟨rfl, by decide⟩

/-- C5 (amended): the derived group id is exactly the format string with
each of the seven fields substituted literally, and for the input fields
`("0001","1","1","1","01","1","1")` it equals `jw000111_1011_1`. -/
theorem attrs_to_group_id_format :
    (∀ p o v vg sq a e : String,
      attrsToGroupId p o v vg sq a e =
        "jw" ++ p ++ o ++ v ++ "_" ++ vg ++ sq ++ a ++ "_" ++ e) ∧
    attrsToGroupId "0001" "1" "1" "1" "01" "1" "1" = "jw000111_1011_1" := by
  constructor
  · intro p o v vg sq a e
    simp [attrsToGroupId, String.append_assoc]
  · rfl

/-- C1: with one outstanding borrow, `close()` raises the counting
`BorrowError`, but the library does not remain logically open: the flag is
cleared before the ledger check, so a subsequent borrow fails with
`ClosedLibraryError`. -/
theorem close_counterexample :
    (exitLib sBorrowedEx).1 = some (Err.borrowError "ModelLibrary has 1 un-returned models") ∧
    getItem (exitLib sBorrowedEx).2 0 = .error (Err.closedLibraryError "ModelLibrary is not open") := by
  exact ⟨rfl, rfl⟩

/-- C1 (amended): for every open library, `close()` with `k > 0` ledger
entries raises a `BorrowError` reporting `k`, and the library ends up
closed either way — every subsequent borrow fails with
`ClosedLibraryError`; with an empty ledger `close()` succeeds and the
library is closed. -/
theorem close_behavior (s : LibState) (hopen : s.isOpen = true) :
    (s.ledger.length > 0 →
      exitLib s = (some (Err.borrowError ("ModelLibrary has " ++ toString s.ledger.length ++ " un-returned models")), { s with isOpen := false }) ∧
      ∀ i, getItem (exitLib s).2 i = .error (Err.closedLibraryError "ModelLibrary is not open")) ∧
    (s.ledger.length = 0 →
      exitLib s = (none, { s with isOpen := false })) := by
  constructor
  · intro hk
    have hne : s.ledger.isEmpty = false := by
      cases hl : s.ledger with
      | nil => rw [hl] at hk; simp at hk
      | cons a t => simp [List.isEmpty]
    constructor
    · simp [exitLib, hne]
    · intro i
      simp [exitLib, hne, getItem]
  · intro hk
    have hnil : s.ledger = [] := List.length_eq_zero.mp hk
    simp [exitLib, hnil]

theorem close_behavior_witness :
    exitLib sBorrowedEx = (some (Err.borrowError "ModelLibrary has 1 un-returned models"), { sBorrowedEx with isOpen := false }) ∧
    getItem (exitLib sBorrowedEx).2 0 = .error (Err.closedLibraryError "ModelLibrary is not open") := by
  exact ⟨((close_behavior sBorrowedEx rfl).1 (by decide)).1,
         ((close_behavior sBorrowedEx rfl).1 (by decide)).2 0⟩

/-- C2: on a closed library, `discard` and `return` do not raise
`ClosedLibraryError`: with the index still in the ledger (the state a
failed `close()` leaves behind) both succeed outright. -/
theorem closed_ops_counterexample :
    sClosedLedgerEx.isOpen = false ∧
    discard sClosedLedgerEx 0 modelEx = .ok ((), { sClosedLedgerEx with ledger := [] }) ∧
    setItem sClosedLedgerEx 0 modelEx = .ok ((), { sClosedLedgerEx with ledger := [], store := .mem [(0, modelEx)] }) := by
  exact ⟨rfl, rfl, rfl⟩

/-- C2 (amended): while a library is closed, borrowing any index and
iterating a non-empty library fail with `ClosedLibraryError`; `return` and
`discard` never consult the open flag — they fail with `BorrowError` when
the index is not in the ledger and succeed when it is. -/
theorem closed_ops_behavior (s : LibState) (hclosed : s.isOpen = false) :
    (∀ i, getItem s i = .error (Err.closedLibraryError "ModelLibrary is not open")) ∧
    (s.members ≠ [] → iterAll s = .error (Err.closedLibraryError "ModelLibrary is not open")) ∧
    (∀ i m, dlookup i s.ledger = none →
      setItem s i m = .error (Err.borrowError "Attempt to return non-borrowed model") ∧
      discard s i m = .error (Err.borrowError "Attempt to discard non-borrowed model")) ∧
    (∀ i mdl m, dlookup i s.ledger = some mdl →
      setItem s i m = .ok ((), { s with ledger := derase i s.ledger, store := s.store.set i m }) ∧
      discard s i m = .ok ((), { s with ledger := derase i s.ledger })) := by
  refine ⟨?_, ?_, ?_, ?_⟩
  · intro i
    simp [getItem, hclosed]
  · intro hne
    have : ∃ n, s.members.length = n + 1 := by
      cases hm : s.members with
      | nil => exact absurd hm hne
      | cons a t => exact ⟨t.length, by simp⟩
    obtain ⟨n, hn⟩ := this
    unfold iterAll
    rw [hn, List.range_succ_eq_map]
    simp [iterGo, getItem, hclosed]
  · intro i m hl
    exact ⟨by simp [setItem, hl], by simp [discard, discardIdx, hl]⟩
  · intro i mdl m hl
    exact ⟨by simp [setItem, hl], by simp [discard, discardIdx, hl]⟩

theorem closed_ops_behavior_witness :
    getItem sClosedLedgerEx 0 = .error (Err.closedLibraryError "ModelLibrary is not open") ∧
    iterAll sClosedLedgerEx = .error (Err.closedLibraryError "ModelLibrary is not open") ∧
    setItem sClosedLedgerEx 1 modelEx = .error (Err.borrowError "Attempt to return non-borrowed model") ∧
    discard sClosedLedgerEx 0 modelEx = .ok ((), { sClosedLedgerEx with ledger := derase 0 sClosedLedgerEx.ledger }) := by
  exact ⟨(closed_ops_behavior sClosedLedgerEx rfl).1 0,
         (closed_ops_behavior sClosedLedgerEx rfl).2.1 (by decide),
         ((closed_ops_behavior sClosedLedgerEx rfl).2.2.1 1 modelEx rfl).1,
         ((closed_ops_behavior sClosedLedgerEx rfl).2.2.2 0 modelEx modelEx rfl).2⟩

/-- Flattening of a `group_indices` dictionary: all indices over all
groups, in dictionary order. -/
def flatIdx (gd : List (String × List Nat)) : List Nat :=
  (gd.map Prod.snd).flatten

theorem flat_gappend_count (k : String) (i j : Nat) (gd : List (String × List Nat)) :
    (flatIdx (gappend k i gd)).count j =
      (flatIdx gd).count j + (if j = i then 1 else 0) := by
  induction gd with
  | nil =>
    simp only [gappend, flatIdx, List.map_cons, List.map_nil, List.flatten]
    by_cases h : j = i <;> simp [h, List.count_singleton, List.count_cons]
  | cons p gd ih =>
    obtain ⟨k', l⟩ := p
    by_cases hk : k' = k
    · simp only [gappend, if_pos hk, flatIdx, List.map_cons, List.flatten_cons,
        List.count_append]
      by_cases h : j = i <;> simp [h, List.count_singleton] <;> omega
    · simp only [gappend, if_neg hk, flatIdx, List.map_cons, List.flatten_cons,
        List.count_append]
      simp only [flatIdx] at ih
      rw [ih]
      omega

theorem gappend_sorted (k : String) (i : Nat) (gd : List (String × List Nat))
    (h : ∀ p ∈ gd, List.Pairwise (· < ·) p.2 ∧ ∀ x ∈ p.2, x < i) :
    ∀ p ∈ gappend k i gd, List.Pairwise (· < ·) p.2 ∧ ∀ x ∈ p.2, x < i + 1 := by
  induction gd with
  | nil =>
    intro p hp
    simp only [gappend, List.mem_singleton] at hp
    subst hp
    exact ⟨List.pairwise_singleton _ _, by simp⟩
  | cons q gd ih =>
    obtain ⟨k', l⟩ := q
    have hhead := h (k', l) (List.mem_cons_self _ _)
    have htail : ∀ p ∈ gd, List.Pairwise (· < ·) p.2 ∧ ∀ x ∈ p.2, x < i :=
      fun p hp => h p (List.mem_cons_of_mem _ hp)
    by_cases hk : k' = k
    · intro p hp
      simp only [gappend, if_pos hk, List.mem_cons] at hp
      rcases hp with hp | hp
      · subst hp
        refine ⟨?_, ?_⟩
        · rw [List.pairwise_append]
          refine ⟨hhead.1, List.pairwise_singleton _ _, ?_⟩
          intro a ha b hb
          rw [List.mem_singleton] at hb
          subst hb
          exact hhead.2 a ha
        · intro x hx
          rw [List.mem_append, List.mem_singleton] at hx
          rcases hx with hx | hx
          · exact Nat.lt_succ_of_lt (hhead.2 x hx)
          · subst hx
            exact Nat.lt_succ_self x
      · have := htail p hp
        exact ⟨this.1, fun x hx => Nat.lt_succ_of_lt (this.2 x hx)⟩
    · intro p hp
      simp only [gappend, if_neg hk, List.mem_cons] at hp
      rcases hp with hp | hp
      · subst hp
        exact ⟨hhead.1, fun x hx => Nat.lt_succ_of_lt (hhead.2 x hx)⟩
      · exact ih htail p hp

theorem giAux_inv (ms : List Member) : ∀ (i : Nat) (gd : List (String × List Nat)),
    (∀ j, (flatIdx gd).count j = if j < i then 1 else 0) →
    (∀ p ∈ gd, List.Pairwise (· < ·) p.2 ∧ ∀ x ∈ p.2, x < i) →
    (∀ j, (flatIdx (giAux ms i gd)).count j = if j < i + ms.length then 1 else 0) ∧
    (∀ p ∈ giAux ms i gd, List.Pairwise (· < ·) p.2 ∧ ∀ x ∈ p.2, x < i + ms.length) := by
  induction ms with
  | nil =>
    intro i gd h1 h2
    constructor
    · intro j
      simpa [giAux] using h1 j
    · intro p hp
      simpa [giAux] using h2 p hp
  | cons m rest ih =>
    intro i gd h1 h2
    have h1' : ∀ j, (flatIdx (gappend m.group_id i gd)).count j = if j < i + 1 then 1 else 0 := by
      intro j
      rw [flat_gappend_count, h1 j]
      split_ifs <;> omega
    have h2' := gappend_sorted m.group_id i gd h2
    have hrec := ih (i + 1) (gappend m.group_id i gd) h1' h2'
    have hlen : i + 1 + rest.length = i + (m :: rest).length := by
      simp
      omega
    constructor
    · intro j
      have := hrec.1 j
      rw [hlen] at this
      exact this
    · intro p hp
      have := hrec.2 p hp
      rw [hlen] at this
      exact this

/-- C6: `group_indices` partitions the index range: every index below `N`
occurs exactly once across all group lists, no other index occurs at all,
the union of the lists is exactly `0..N-1`, and each group's list is
strictly ascending. -/
theorem group_indices_partition (members : List Member) :
    (∀ j, (flatIdx (groupIndicesOf members)).count j =
       if j < members.length then 1 else 0) ∧
    (∀ j, j ∈ flatIdx (groupIndicesOf members) ↔ j < members.length) ∧
    (∀ p ∈ groupIndicesOf members, List.Pairwise (· < ·) p.2) := by
  have hbase1 : ∀ j, (flatIdx ([] : List (String × List Nat))).count j = if j < 0 then 1 else 0 := by
    intro j
    simp [flatIdx]
  have hbase2 : ∀ p ∈ ([] : List (String × List Nat)), List.Pairwise (· < ·) p.2 ∧ ∀ x ∈ p.2, x < 0 := by
    intro p hp
    simp at hp
  have hinv := giAux_inv members 0 [] hbase1 hbase2
  have hcount : ∀ j, (flatIdx (groupIndicesOf members)).count j = if j < members.length then 1 else 0 := by
    intro j
    have := hinv.1 j
    simpa [groupIndicesOf] using this
  refine ⟨hcount, ?_, ?_⟩
  · intro j
    constructor
    · intro hmem
      by_contra hj
      have h0 : (flatIdx (groupIndicesOf members)).count j = 0 := by
        rw [hcount j, if_neg hj]
      exact (List.count_eq_zero.mp h0) hmem
    · intro hj
      have h1 : (flatIdx (groupIndicesOf members)).count j = 1 := by
        rw [hcount j, if_pos hj]
      by_contra hmem
      rw [List.count_eq_zero.mpr hmem] at h1
      exact Nat.noConfusion h1
  · intro p hp
    exact ((hinv.2 p (by simpa [groupIndicesOf] using hp)).1)

/-- C7: `group_names` and `group_indices` are computed purely from the
member descriptors: they never fail (open or closed), return the library
state exactly unchanged (ledger, store and allocation counter included, so
no borrow and no materialization happens), and their values agree on any
two libraries with the same member list. -/
theorem group_queries_read_only (s : LibState) :
    groupNamesOp s = .ok (groupNamesOf s.members, s) ∧
    groupIndicesOp s = .ok (groupIndicesOf s.members, s) ∧
    (∀ t : LibState, t.members = s.members →
       groupNamesOp t = .ok (groupNamesOf s.members, t) ∧
       groupIndicesOp t = .ok (groupIndicesOf s.members, t)) := by
  refine ⟨rfl, rfl, ?_⟩
  intro t ht
  exact ⟨by simp [groupNamesOp, ht], by simp [groupIndicesOp, ht]⟩

theorem group_queries_read_only_witness :
    groupNamesOp sClosedLedgerEx = .ok (groupNamesOf sBorrowedEx.members, sClosedLedgerEx) ∧
    groupIndicesOp sClosedLedgerEx = .ok (groupIndicesOf sBorrowedEx.members, sClosedLedgerEx) := by
  exact (group_queries_read_only sBorrowedEx).2.2 sClosedLedgerEx rfl

theorem resolveGroupId_fields {files : List (String × FileData)} {r : RawMember} {m : Member}
    (h : resolveGroupId files r = .ok m) : m.expname = r.expname ∧ m.exptype = r.exptype := by
  unfold resolveGroupId at h
  split at h
  · simp only [Except.ok.injEq] at h
    subst h
    exact ⟨rfl, rfl⟩
  · split at h
    · exact Except.noConfusion h
    · simp only [Except.ok.injEq] at h
      subst h
      exact ⟨rfl, rfl⟩

theorem resolveMembers_map {files : List (String × FileData)} :
    ∀ {l : List RawMember} {members : List Member},
    resolveMembers files l = .ok members →
    members.map (fun m => (m.expname, m.exptype)) = l.map (fun r => (r.expname, r.exptype)) := by
  intro l
  induction l with
  | nil =>
    intro members h
    unfold resolveMembers at h
    simp only [Except.ok.injEq] at h
    subst h
    simp
  | cons r rest ih =>
    intro members h
    unfold resolveMembers at h
    split at h
    · exact Except.noConfusion h
    · rename_i m' hres
      split at h
      · exact Except.noConfusion h
      · rename_i rest' hrest
        simp only [Except.ok.injEq] at h
        subst h
        obtain ⟨he, ht⟩ := resolveGroupId_fields hres
        simp [he, ht, ih hrest]

/-- C8: construction applies the exposure-type allow-set filter first and
the member-count truncation second; with no filter, truncation to `K ≤ N`
members keeps exactly the first `K` raw members in order, and the
constructed library's members carry exactly those entries in the same
order. -/
theorem construction_filter_truncate (raw : List RawMember) :
    (∀ ts k, selectMembers (some ts) (some k) raw =
       (raw.filter (fun m => m.exptype ∈ ts)).take k) ∧
    (∀ k, k ≤ raw.length →
       selectMembers none (some k) raw = raw.take k ∧
       (selectMembers none (some k) raw).length = k) ∧
    (∀ files k od lib, initLib files raw none (some k) od = .ok lib →
       lib.members.map (fun m => (m.expname, m.exptype)) =
         (raw.take k).map (fun r => (r.expname, r.exptype)) ∧
       (k ≤ raw.length → lib.members.length = k)) := by
  refine ⟨?_, ?_, ?_⟩
  · intro ts k
    rfl
  · intro k hk
    refine ⟨rfl, ?_⟩
    have hsel : selectMembers none (some k) raw = raw.take k := rfl
    rw [hsel, List.length_take]
    omega
  · intro files k od lib hinit
    have hres := (initLib_ok hinit).1
    have hmap := resolveMembers_map hres
    constructor
    · exact hmap
    · intro hk
      have hlen := congrArg List.length hmap
      have hsel : selectMembers none (some k) raw = raw.take k := rfl
      rw [hsel] at hlen
      simp only [List.length_map, List.length_take] at hlen
      omega

theorem construction_filter_truncate_witness :
    selectMembers none (some 2) rawsEx = rawsEx.take 2 ∧
    (selectMembers none (some 2) rawsEx).length = 2 ∧
    libTruncEx.members.map (fun m => (m.expname, m.exptype)) =
      (rawsEx.take 2).map (fun r => (r.expname, r.exptype)) ∧
    libTruncEx.members.length = 2 := by
  exact ⟨((construction_filter_truncate rawsEx).2.1 2 (by decide)).1,
         ((construction_filter_truncate rawsEx).2.1 2 (by decide)).2,
         ((construction_filter_truncate rawsEx).2.2 [] 2 false libTruncEx rfl).1,
         ((construction_filter_truncate rawsEx).2.2 [] 2 false libTruncEx rfl).2 (by decide)⟩

/-- C9: every successful read from the spillover store deserializes a
fresh object: two successive `get` calls for the same key return objects
with equal data but distinct identities, so mutating the heap cell of one
leaves the other's cell untouched. -/
theorem disk_get_fresh (fns : List (Nat × String)) (files : List (String × ModelMeta))
    (k nid n1 n2 : Nat) (m1 m2 : Model)
    (h1 : Store.get (.disk fns files) k nid = .ok (m1, n1))
    (h2 : Store.get (.disk fns files) k n1 = .ok (m2, n2)) :
    m1.meta = m2.meta ∧ m1.oid ≠ m2.oid ∧
    (∀ (heap : List (Nat × ModelMeta)) (v : ModelMeta),
       dlookup m2.oid (dset m1.oid v heap) = dlookup m2.oid heap) := by
  cases hf : dlookup k fns with
  | none =>
    rw [Store.get, hf] at h1
    exact Except.noConfusion h1
  | some fn =>
    cases hm : dlookup fn files with
    | none =>
      simp only [Store.get, hf, hm] at h1
      exact Except.noConfusion h1
    | some meta =>
      simp only [Store.get, hf, hm, Except.ok.injEq, Prod.mk.injEq] at h1 h2
      obtain ⟨hm1, hn1⟩ := h1
      obtain ⟨hm2, _⟩ := h2
      subst hn1
      refine ⟨?_, ?_, ?_⟩
      · rw [← hm1, ← hm2]
      · rw [← hm1, ← hm2]
        simp
      · intro heap v
        apply dlookup_dset_ne
        rw [← hm1, ← hm2]
        simp

theorem disk_get_fresh_witness :
    Store.get diskStoreEx 0 5 = .ok ({ oid := 5, meta := metaEx }, 6) ∧
    ({ oid := 5, meta := metaEx } : Model).meta = ({ oid := 6, meta := metaEx } : Model).meta ∧
    ({ oid := 5, meta := metaEx } : Model).oid ≠ ({ oid := 6, meta := metaEx } : Model).oid ∧
    (∀ (heap : List (Nat × ModelMeta)) (v : ModelMeta),
       dlookup ({ oid := 6, meta := metaEx } : Model).oid
           (dset ({ oid := 5, meta := metaEx } : Model).oid v heap) =
         dlookup ({ oid := 6, meta := metaEx } : Model).oid heap) := by
  have h := disk_get_fresh [(0, "0/model.fits")] [("0/model.fits", metaEx)] 0 5 6 7
    { oid := 5, meta := metaEx } { oid := 6, meta := metaEx } rfl rfl
  exact ⟨rfl, h.1, h.2.1, h.2.2⟩

/-- C10: for every library with at least one member, consuming the
generator returned by `index` raises before yielding anything: the loop
header unpacks two variables from the ints produced by `range(len(self))`,
which raises `TypeError` at the first iteration, for every attribute name
and either value of the copy flag. -/
theorem index_generator_raises (s : LibState) (attrName : String) (copy : Bool)
    (h : 1 ≤ s.members.length) :
    (indexGen s attrName copy).yielded = [] ∧
    (indexGen s attrName copy).err.isSome = true := by
  obtain ⟨n, hn⟩ : ∃ n, s.members.length = n + 1 := ⟨s.members.length - 1, by omega⟩
  have hgo : indexGen s attrName copy = genAbort (enter s) [] Err.typeError := by
    unfold indexGen pyRange
    rw [hn, List.range_succ_eq_map]
    rfl
  rw [hgo]
  unfold genAbort exitLib enter
  cases hl : s.ledger.isEmpty <;> simp [hl]

theorem index_generator_raises_witness :
    (indexGen sFreshEx "meta.filename" false).yielded = [] ∧
    (indexGen sFreshEx "meta.filename" false).err.isSome = true := by
  exact index_generator_raises sFreshEx "meta.filename" false (by decide)

end JwstLib
